import Mathlib

/-!
Verification of the dprint-on-save Sublime Text plugin
(`dprint_on_save.py`), shallowly embedded in Lean 4.

File paths handled by the config locator are modelled as lists of
path components (root = `[]`, `dirname` = `List.dropLast`, so
`parent dir = dir` exactly when `dir = []`); paths handled as opaque
coordination keys are plain strings, as in the source.  Bytes are
`Nat` values below 256 produced by an explicit UTF-8 encoder.  The
subprocess result of a tool invocation is a triple (return code,
stdout, stderr), with exceptional outcomes made explicit constructors.
-/

namespace DprintOnSave

/-! ## String utilities: `strip_ansi`, Python `in`, `lower`, `strip`,
`splitlines`, `os.path.basename`.

The source's ANSI pattern is `ESC` `[`, then any number of characters
in 0x30..0x3F (parameters), then any number in 0x20..0x2F
(intermediates), then one final character in 0x40..0x7E. -/

/-- Parameter characters (0x30..0x3F) of the CSI regex. -/
def isCsiParam (c : Char) : Bool := 0x30 ≤ c.toNat && c.toNat ≤ 0x3F

/-- Intermediate characters (0x20..0x2F) of the CSI regex. -/
def isCsiInter (c : Char) : Bool := 0x20 ≤ c.toNat && c.toNat ≤ 0x2F

/-- Final characters (0x40..0x7E) of the CSI regex. -/
def isCsiFinal (c : Char) : Bool := 0x40 ≤ c.toNat && c.toNat ≤ 0x7E

/-- Try to match the part of the CSI regex after `ESC [` (parameters,
then intermediates, then one final character) at the head of `l`; on
success return the remainder of the list.  The three character classes
are pairwise disjoint, so the greedy match without backtracking is
exactly what Python's `re` computes. -/
def matchCsiTail (l : List Char) : Option (List Char) :=
  match (l.dropWhile isCsiParam).dropWhile isCsiInter with
  | [] => none
  | c :: cs => if isCsiFinal c then some cs else none

theorem dropWhile_length_le (p : Char → Bool) (l : List Char) :
    (l.dropWhile p).length ≤ l.length := by
  induction l with
  | nil => simp [List.dropWhile]
  | cons a l ih =>
    by_cases h : p a
    · simp [List.dropWhile, h]; omega
    · simp [List.dropWhile, h]

theorem matchCsiTail_length {l rest : List Char}
    (h : matchCsiTail l = some rest) : rest.length < l.length + 1 := by
  unfold matchCsiTail at h
  rcases hr : (l.dropWhile isCsiParam).dropWhile isCsiInter with _ | ⟨c, cs⟩ <;>
    rw [hr] at h
  · exact absurd h (by simp)
  · have h2 : (c :: cs).length ≤ l.length := by
      calc (c :: cs).length ≤ (l.dropWhile isCsiParam).length := by
            rw [← hr]; exact dropWhile_length_le _ _
        _ ≤ l.length := dropWhile_length_le _ _
    by_cases hf : isCsiFinal c
    · simp [hf] at h
      subst h
      simp at h2
      omega
    · simp [hf] at h

/-- `ANSI_ESCAPE_RE.sub('', text)` on a character list: delete every
non-overlapping leftmost match of the CSI pattern, keeping everything
else.  Structural recursion on a fuel argument so the kernel can
evaluate it; every recursive call consumes at least one character, so
a fuel equal to the list length always suffices and the fuel-exhausted
branch is unreachable from `stripAnsiList`. -/
def stripAnsiFuel : Nat → List Char → List Char
  | _, [] => []
  | 0, l => l
  | fuel + 1, '\x1b' :: '[' :: r2 =>
    (match matchCsiTail r2 with
     | some rem => stripAnsiFuel fuel rem
     | none => '\x1b' :: stripAnsiFuel fuel ('[' :: r2))
  | fuel + 1, c :: rest => c :: stripAnsiFuel fuel rest

def stripAnsiList (l : List Char) : List Char := stripAnsiFuel l.length l

/-- `strip_ansi(text)`: remove ANSI CSI escape sequences.  The Python
function maps `None` to `''` via `text or ''`; the embedding takes the
string directly. -/
def strip_ansi (s : String) : String := ⟨stripAnsiList s.data⟩

/-- Prefix test on character lists. -/
def listIsPrefix : List Char → List Char → Bool
  | [], _ => true
  | _ :: _, [] => false
  | a :: l, b :: m => a == b && listIsPrefix l m

/-- Contiguous-substring test on character lists. -/
def listIsInfix (needle : List Char) (hay : List Char) : Bool :=
  match hay with
  | [] => listIsPrefix needle []
  | _ :: rest => listIsPrefix needle hay || listIsInfix needle rest

/-- Python's `needle in haystack` substring test. -/
def pyIn (needle haystack : String) : Bool :=
  listIsInfix needle.data haystack.data

/-- Python's `str.lower()` (ASCII range, which is all the source uses). -/
def pyLower (s : String) : String := ⟨s.data.map Char.toLower⟩

/-- Whitespace for Python's `str.strip()` (the ASCII whitespace
characters, which are all that occur here). -/
def pySpace (c : Char) : Bool :=
  c == ' ' || c == '\t' || c == '\n' || c == '\r' || c == '\x0b' || c == '\x0c'

/-- Python's `str.strip()` with no arguments (whitespace at both ends). -/
def pyStrip (s : String) : String :=
  ⟨((s.data.dropWhile pySpace).reverse.dropWhile pySpace).reverse⟩

/-- Python's `str.splitlines()` on a character list with an accumulator
for the current line (reversed): split at carriage-return/line-feed
pairs and at single line feeds and carriage returns, with no trailing
empty line after a trailing terminator. -/
def splitlinesList : List Char → List Char → List String
  | acc, [] => if acc.isEmpty then [] else [⟨acc.reverse⟩]
  | acc, '\r' :: '\n' :: rest => ⟨acc.reverse⟩ :: splitlinesList [] rest
  | acc, '\r' :: rest => ⟨acc.reverse⟩ :: splitlinesList [] rest
  | acc, '\n' :: rest => ⟨acc.reverse⟩ :: splitlinesList [] rest
  | acc, c :: rest => splitlinesList (c :: acc) rest

/-- Python's `str.splitlines()` (ASCII line boundaries). -/
def pySplitlines (s : String) : List String := splitlinesList [] s.data

/-- `os.path.basename` on a POSIX path string: the part after the last
separator. -/
def pyBasename (s : String) : String :=
  ⟨(s.data.reverse.takeWhile (fun c => c != '/')).reverse⟩

/-- UTF-8 encoding of one code point (byte values as `Nat`). -/
def utf8Char (c : Char) : List Nat :=
  let n := c.toNat
  if n < 0x80 then [n]
  else if n < 0x800 then
    [0xC0 ||| (n >>> 6), 0x80 ||| (n &&& 0x3F)]
  else if n < 0x10000 then
    [0xE0 ||| (n >>> 12), 0x80 ||| ((n >>> 6) &&& 0x3F), 0x80 ||| (n &&& 0x3F)]
  else
    [0xF0 ||| (n >>> 18), 0x80 ||| ((n >>> 12) &&& 0x3F),
     0x80 ||| ((n >>> 6) &&& 0x3F), 0x80 ||| (n &&& 0x3F)]

/-- `text.encode("utf-8")` as a byte list.  Editor buffer text is always
valid Unicode, so `errors="replace"` never fires. -/
def encodeUtf8 (s : String) : List Nat := (s.data.map utf8Char).flatten

/-! ## ConfigLocator: `find_dprint_config`

Directories are lists of components; `os.path.dirname` is
`List.dropLast` and `os.path.join dir name` is `dir ++ [name]`.
`parent == cur` holds exactly for the root `[]`.  The filesystem is a
decidable predicate `fs : List String → Bool` telling which paths are
existing regular files (`os.path.isfile`). -/

/-- The fixed recognized configuration filenames, in the priority order
the source checks them. -/
def configNames : List String := ["dprint.json", "dprint.jsonc"]

/-- One level of the walk: the first name in `configNames` that exists
as a file inside `dir`, as a full path. -/
def checkDir (fs : List String → Bool) (dir : List String) :
    Option (List String) :=
  (configNames.map (fun name => dir ++ [name])).find? fs

/-- `find_dprint_config(start_path)`: walk up from `start_path` looking
for the nearest `dprint.json` or `dprint.jsonc`; return the full path
of the first match, or `none` once the root (`parent == cur`) is
reached without a match. -/
def find_dprint_config (fs : List String → Bool) :
    (cur : List String) → Option (List String)
  | [] => checkDir fs []
  | a :: l =>
    match checkDir fs (a :: l) with
    | some p => some p
    | none => find_dprint_config fs (a :: l).dropLast
termination_by cur => cur.length
decreasing_by
  simp

/-- The chain of directories the walk visits, from `start` up to and
including the root. -/
def ancestorChain : (cur : List String) → List (List String)
  | [] => [[]]
  | a :: l => (a :: l) :: ancestorChain (a :: l).dropLast
termination_by cur => cur.length
decreasing_by
  simp

/-! ## PerFileExecutionCoordinator: the module-level
`_running_lock` / `_running_by_path` / `_pending_by_path` state and the
functions `_start_or_mark_pending` / `_finish_and_maybe_rerun`.

The lock makes each of the two functions atomic, so the concurrent
system is a sequential interleaving of those two atomic actions; we
model it as a transition system.  `running` is the key set of
`_running_by_path` (the mapped `threading.Event`s only signal waiters
and carry no coordination state), `pending` is `_pending_by_path`, and
`inflight` is the multiset of started-but-not-finished
`DprintRunner` threads, each carrying the file path and the config
path it was constructed with. -/

/-- Insertion into a Python `set` modelled as a duplicate-free list. -/
def setInsert (x : String) (l : List String) : List String :=
  if x ∈ l then l else x :: l

structure CoordState where
  running : List String
  pending : List String
  inflight : List (String × String)
deriving DecidableEq, Repr

/-- The module state right after import: empty dict, empty set, no
runner threads. -/
def initState : CoordState := ⟨[], [], []⟩

/-- `_start_or_mark_pending(file_path, runner_factory)` together with
the caller's `runner.start()`: under the lock, if a slot exists for
`file_path` just add it to the pending set and start nothing;
otherwise register a slot and start a new runner (which the caller
constructed with the config resolved for this save).  The boolean
reports whether a runner was started. -/
def start_or_mark_pending (file_path config : String) (s : CoordState) :
    CoordState × Bool :=
  if file_path ∈ s.running then
    ({ s with pending := setInsert file_path s.pending }, false)
  else
    ({ s with running := file_path :: s.running,
              inflight := (file_path, config) :: s.inflight }, true)

/-- `_finish_and_maybe_rerun(file_path, view, config_path, runner_cls)`
as executed from the `finally:` block of the finishing runner thread
(which thereby leaves `inflight`): pop the slot, and if a rerun is
pending, discard the pending mark and start a fresh
`DprintRunner(view, file_path, config_path)` — note the source requeues
with the finished runner's `config_path` and does **not** go through
`_start_or_mark_pending`, so no slot is registered for the requeued
run. -/
def finish_and_maybe_rerun (file_path config : String) (s : CoordState) :
    CoordState :=
  let running := s.running.erase file_path
  let inflight := s.inflight.erase (file_path, config)
  if file_path ∈ s.pending then
    { running := running,
      pending := s.pending.erase file_path,
      inflight := (file_path, config) :: inflight }
  else
    { running := running, pending := s.pending, inflight := inflight }

/-- Atomic coordinator actions: a save event for a path (with the
config resolved for that save) reaching `_start_or_mark_pending`, or
the completion of an in-flight run. -/
inductive Event where
  | save (file_path config : String)
  | finish (file_path config : String)
deriving DecidableEq, Repr

def step (s : CoordState) : Event → CoordState
  | .save p c => (start_or_mark_pending p c s).1
  | .finish p c => finish_and_maybe_rerun p c s

def applyTrace (s : CoordState) (t : List Event) : CoordState :=
  t.foldl step s

/-- A trace is legal from `s` when every `finish` event completes a run
that is actually in flight at that point. -/
def legalFrom (s : CoordState) : List Event → Bool
  | [] => true
  | e :: t =>
    (match e with
     | .save _ _ => true
     | .finish p c => s.inflight.contains (p, c)) && legalFrom (step s e) t

/-- Number of in-flight runs for a given path. -/
def countInflight (s : CoordState) (p : String) : Nat :=
  s.inflight.countP (fun r => r.1 == p)

/-- How many runs for path `p` the event `e` starts when executed in
state `s`: a save starts one exactly when no slot exists; a completion
starts one (the requeued runner) exactly when a rerun is pending. -/
def startsOf (s : CoordState) (e : Event) (p : String) : Nat :=
  match e with
  | .save q _ => if q = p ∧ q ∉ s.running then 1 else 0
  | .finish q _ => if q = p ∧ q ∈ s.pending then 1 else 0

/-- Total number of runs for path `p` started while executing a trace. -/
def traceStarts (s : CoordState) : List Event → String → Nat
  | [], _ => 0
  | e :: t, p => startsOf s e p + traceStarts (step s e) t p

/-! ## ExternalToolInvoker: `DprintRunner.run` -/

/-- Outcome of the `subprocess.run` call inside `DprintRunner.run`:
either a completed process (return code, raw stdout, raw stderr), a
`FileNotFoundError`, or any other exception with its message text. -/
inductive RunOutcome where
  | proc (returncode : Int) (stdout stderr : String)
  | fileNotFound
  | exc (msg : String)
deriving DecidableEq, Repr

/-- The benign-skip test on the cleaned outputs:
`"no files" in low or "no matching files" in low` where
`low = (stdout + "\n" + stderr).lower()`. -/
def benignNoMatch (stdout stderr : String) : Bool :=
  let low := pyLower (stdout ++ "\n" ++ stderr)
  pyIn "no files" low || pyIn "no matching files" low

/-- The panel messages `DprintRunner.run` writes for an outcome. -/
def runnerPanels : RunOutcome → List String
  | .proc rc out err =>
    if rc ≠ 0 then
      let so := strip_ansi out
      let se := strip_ansi err
      if benignNoMatch so se then []
      else ["dprint fmt failed (exit " ++ toString rc ++ "):\n\nSTDOUT:\n"
              ++ so ++ "\n\nSTDERR:\n" ++ se]
    else []
  | .fileNotFound => ["dprint binary not found in PATH. Install from https://dprint.dev/"]
  | .exc m => ["Unexpected error: " ++ m]

/-- Whether `DprintRunner.run` schedules `_maybe_revert` on the main
thread (only on exit code 0). -/
def runnerSchedulesRevert : RunOutcome → Bool
  | .proc rc _ _ => rc = 0
  | _ => false

structure RunEffects where
  state : CoordState
  panels : List String
  revertScheduled : Bool
deriving DecidableEq, Repr

/-- `DprintRunner.run`: classify the subprocess outcome (writing panel
messages and possibly scheduling `_maybe_revert`), then — in the
`finally:` block, hence on every control path including exceptions —
call `_finish_and_maybe_rerun`. -/
def runnerRun (file_path config : String) (outcome : RunOutcome)
    (s : CoordState) : RunEffects :=
  { state := finish_and_maybe_rerun file_path config s
    panels := runnerPanels outcome
    revertScheduled := runnerSchedulesRevert outcome }

/-! ## ResultReconciler: `DprintRunner._maybe_revert` -/

/-- The editor view at reconciliation time: the two liveness flags and
the buffer text (`v.substr(sublime.Region(0, v.size()))`). -/
structure ViewState where
  isLoading : Bool
  isDirty : Bool
  text : String
deriving DecidableEq, Repr

/-- `DprintRunner._maybe_revert`: returns whether the `revert` command
is issued.  `view` is `none` when the view handle is falsy; `diskRead`
is `none` when `open(file_path, "rb").read()` raises, otherwise the
on-disk bytes.  The buffer text is encoded as UTF-8 and compared with
the on-disk bytes. -/
def maybe_revert (view : Option ViewState)
    (diskRead : Option (List Nat)) : Bool :=
  match view with
  | none => false
  | some v =>
    if v.isLoading || v.isDirty then false
    else
      match diskRead with
      | none => false
      | some disk => decide (encodeUtf8 v.text ≠ disk)

/-! ## Coverage probe: `handled_by_dprint` -/

/-- Outcome of the `subprocess.run` of
`dprint output-file-paths <file> --config <config>`: a completed
process or any exception. -/
inductive ProbeOutcome where
  | exc
  | proc (returncode : Int) (stdout stderr : String)
deriving DecidableEq, Repr

/-- `handled_by_dprint(file_path, config_path)`: on probe exit code 0,
covered iff the cleaned, stripped output is non-empty and some line's
basename equals the file's basename; on nonzero exit or any exception,
fall back to letting `fmt` decide (`True`). -/
def handled_by_dprint (file_path : String) (probe : ProbeOutcome) : Bool :=
  match probe with
  | .exc => true
  | .proc rc out _ =>
    if rc = 0 then
      let o := pyStrip (strip_ansi out)
      if o = "" then false
      else
        let fname := pyBasename file_path
        (pySplitlines o).any (fun line => pyBasename (pyStrip line) == fname)
    else true

/-! ## SaveEventHandler: `DprintOnSave.on_post_save_async` -/

/-- External tool invocations the handler can cause: the coverage probe
and the `fmt` run of the dispatched runner. -/
inductive Invocation where
  | probe
  | fmt
deriving DecidableEq, Repr

structure HandlerResult where
  invocations : List Invocation
  dispatched : Bool
  panels : List String
deriving DecidableEq, Repr

/-- Path components rendered as the absolute path string the view
reports. -/
def pathToString (p : List String) : String :=
  String.intercalate "/" ("" :: p)

/-- `DprintOnSave.on_post_save_async(view)`: drop re-entrant calls for
a busy view id; return silently when the view has no file name or
`find_dprint_config` on its directory finds nothing; otherwise run the
coverage probe, and dispatch a serialized runner only when it reports
the file covered.  The result records the external invocations caused
(the probe, and the dispatched runner's `fmt` run), whether a runner
was dispatched, and panel messages written directly by the handler
(always none). -/
def on_post_save_async (alreadyBusy : Bool) (filePath : Option (List String))
    (fs : List String → Bool) (probe : ProbeOutcome) : HandlerResult :=
  if alreadyBusy then ⟨[], false, []⟩
  else
    match filePath with
    | none => ⟨[], false, []⟩
    | some fp =>
      match find_dprint_config fs fp.dropLast with
      | none => ⟨[], false, []⟩
      | some _ =>
        if handled_by_dprint (pathToString fp) probe then
          ⟨[.probe, .fmt], true, []⟩
        else
          ⟨[.probe], false, []⟩

/-! ## The per-view reentrancy guard (`DprintOnSave._busy`)

`on_post_save_async` first atomically tests-and-adds the view id to
`_busy` and removes it in its `finally:` block, so the guard state
evolves by two atomic actions: the arrival of a save-completion event
(which either executes the handler body or is dropped) and the return
of a running handler invocation. -/

inductive GuardEvent where
  | arrive (vid : Nat)
  | leave (vid : Nat)
deriving DecidableEq, Repr

structure GuardState where
  busy : List Nat
  bodyRuns : List Nat
deriving DecidableEq, Repr

/-- One guard action: an arriving event for a busy view id is dropped;
otherwise the id is marked busy and the handler body executes (recorded
in `bodyRuns`).  A leave removes the id from the busy set. -/
def guardStep (s : GuardState) : GuardEvent → GuardState
  | .arrive vid =>
    if vid ∈ s.busy then s
    else { busy := vid :: s.busy, bodyRuns := s.bodyRuns ++ [vid] }
  | .leave vid => { s with busy := s.busy.erase vid }

def guardRun (t : List GuardEvent) : GuardState :=
  t.foldl guardStep ⟨[], []⟩

/-- Number of handler-body executions for a view id. -/
def bodyCount (s : GuardState) (vid : Nat) : Nat := s.bodyRuns.count vid

/-! ## Helper lemmas -/

theorem checkDir_cases (fs : List String → Bool) (d : List String) :
    checkDir fs d =
      (if fs (d ++ ["dprint.json"]) then some (d ++ ["dprint.json"])
       else if fs (d ++ ["dprint.jsonc"]) then some (d ++ ["dprint.jsonc"])
       else none) := by
  by_cases h1 : fs (d ++ ["dprint.json"]) <;>
    by_cases h2 : fs (d ++ ["dprint.jsonc"]) <;>
    simp [checkDir, configNames, List.find?, h1, h2]

theorem find_eq_chain (fs : List String → Bool) (cur : List String) :
    find_dprint_config fs cur = (ancestorChain cur).findSome? (checkDir fs) := by
  induction cur using find_dprint_config.induct fs with
  | case1 =>
    cases h : checkDir fs [] <;>
      simp [find_dprint_config, ancestorChain, List.findSome?, h]
  | case2 a l p hp => simp [find_dprint_config, ancestorChain, List.findSome?, hp]
  | case3 a l hp ih => simp [find_dprint_config, ancestorChain, List.findSome?, hp, ih]

theorem checkDir_eq_none_iff (fs : List String → Bool) (d : List String) :
    checkDir fs d = none ↔ ∀ name ∈ configNames, fs (d ++ [name]) = false := by
  simp [checkDir, configNames, List.find?_eq_none]

theorem chain_getLast (cur : List String) :
    (ancestorChain cur).getLast? = some [] := by
  induction cur using ancestorChain.induct with
  | case1 => simp [ancestorChain]
  | case2 a l ih =>
    rw [ancestorChain]
    rcases hc : ancestorChain (a :: l).dropLast with _ | ⟨x, xs⟩
    · rw [hc] at ih; simp at ih
    · rw [hc] at ih
      simpa [List.getLast?_cons_cons] using ih

/-! ## Claims -/

/-- C6: starting from any directory, `find_dprint_config` checks each
ancestor in order from the start directory upward, testing the
recognized configuration filenames in the fixed priority order
(`dprint.json` before `dprint.jsonc`) and returning the first existing
match; it returns `none` exactly when no ancestor, up to and including
the root, contains one — and the walk always reaches the directory
whose parent equals itself (the root `[]`, the unique fixed point of
`dropLast`).  Totality of the Lean function is termination. -/
theorem c6_config_locator_walk (fs : List String → Bool) (cur : List String) :
    (find_dprint_config fs cur
       = (ancestorChain cur).findSome? (fun d =>
           if fs (d ++ ["dprint.json"]) then some (d ++ ["dprint.json"])
           else if fs (d ++ ["dprint.jsonc"]) then some (d ++ ["dprint.jsonc"])
           else none))
    ∧ (find_dprint_config fs cur = none ↔
        ∀ d ∈ ancestorChain cur, ∀ name ∈ configNames, fs (d ++ [name]) = false)
    ∧ (ancestorChain cur).getLast? = some [] := by
  refine ⟨?_, ?_, chain_getLast cur⟩
  · rw [find_eq_chain]
    congr 1
    funext d
    exact checkDir_cases fs d
  · rw [find_eq_chain, List.findSome?_eq_none_iff]
    constructor
    · intro h d hd
      exact (checkDir_eq_none_iff fs d).1 (h d hd)
    · intro h d hd
      exact (checkDir_eq_none_iff fs d).2 (h d hd)

/-- C1 (refuted by the code): a legal event sequence — two saves for
path `"a"`, completion of the first run (which requeues the coalesced
follow-up without registering a slot), then a third save during the
follow-up — ends with **two** concurrent in-flight runs for `"a"`. -/
theorem c1_two_concurrent_runs_for_same_path :
    legalFrom initState
        [Event.save "a" "cfg", Event.save "a" "cfg",
         Event.finish "a" "cfg", Event.save "a" "cfg"] = true
    ∧ countInflight (applyTrace initState
        [Event.save "a" "cfg", Event.save "a" "cfg",
         Event.finish "a" "cfg", Event.save "a" "cfg"]) "a" = 2 := by
  constructor
  · decide
  · decide

/-- C3 (refuted by the code): when a run for `"a"` with config `"cfg1"`
completes with the rerun flag set, the requeued follow-up run carries
the completed run's config path `"cfg1"` (no fresh resolution) and no
slot is registered for `"a"` in the running map. -/
theorem c3_rerun_reuses_config_and_registers_no_slot :
    (step ⟨["a"], ["a"], [("a", "cfg1")]⟩ (Event.finish "a" "cfg1")).inflight
        = [("a", "cfg1")]
    ∧ "a" ∉ (step ⟨["a"], ["a"], [("a", "cfg1")]⟩ (Event.finish "a" "cfg1")).running := by
  constructor
  · decide
  · decide

theorem mem_setInsert_self (p : String) (l : List String) : p ∈ setInsert p l := by
  unfold setInsert
  split
  · assumption
  · exact List.mem_cons_self p l

theorem step_save_marks_pending {s : CoordState} {p : String} (c : String)
    (hp : p ∈ s.running) :
    step s (Event.save p c) = { s with pending := setInsert p s.pending } := by
  simp [step, start_or_mark_pending, hp]

theorem saves_fixed {p : String} (c : String) :
    ∀ (s : CoordState), p ∈ s.running → p ∈ s.pending → ∀ N,
      applyTrace s (List.replicate N (Event.save p c)) = s ∧
      traceStarts s (List.replicate N (Event.save p c)) p = 0 := by
  intro s hr hp N
  have hstep : step s (Event.save p c) = s := by
    rw [step_save_marks_pending c hr]
    have : setInsert p s.pending = s.pending := by simp [setInsert, hp]
    simp [this]
  induction N with
  | zero => simp [applyTrace, traceStarts]
  | succ n ih =>
    rw [List.replicate_succ]
    constructor
    · simp only [applyTrace, List.foldl_cons, hstep]
      exact ih.1
    · simp only [traceStarts, hstep, startsOf]
      rw [if_neg (by simp [hr])]
      simpa using ih.2

theorem traceStarts_append (T1 T2 : List Event) (s : CoordState) (p : String) :
    traceStarts s (T1 ++ T2) p =
      traceStarts s T1 p + traceStarts (applyTrace s T1) T2 p := by
  induction T1 generalizing s with
  | nil => simp [traceStarts, applyTrace]
  | cons e T ih =>
    simp only [List.cons_append, traceStarts, List.append_eq]
    rw [ih]
    have h : applyTrace s (e :: T) = applyTrace (step s e) T := by
      simp [applyTrace]
    rw [h]
    omega

/-- The slot-holding case of the coalescing guarantee: from any
coordinator state in which the in-flight run for path `p` holds the
slot (`p` is a key of the running map), dispatching `N ≥ 1` save
events for `p` while that run is in flight starts no run, and after
the in-flight run completes exactly one additional run for `p` has
been started over the whole sequence.  This is the scenario the
admission rule handles correctly; the requeued follow-up run created
by `_finish_and_maybe_rerun` is in flight *without* holding a slot,
and there the guarantee fails. -/
theorem coalescing_when_slot_held (s : CoordState) (p c c0 : String) (N : Nat)
    (hN : 1 ≤ N) (hrun : p ∈ s.running) (_hinf : (p, c0) ∈ s.inflight) :
    traceStarts s (List.replicate N (Event.save p c)) p = 0 ∧
    traceStarts s (List.replicate N (Event.save p c) ++ [Event.finish p c0]) p = 1 := by
  obtain ⟨n, rfl⟩ : ∃ n, N = n + 1 := ⟨N - 1, by omega⟩
  have hstep1 := step_save_marks_pending (s := s) (p := p) c hrun
  set s1 : CoordState := { s with pending := setInsert p s.pending } with hs1
  have hr1 : p ∈ s1.running := hrun
  have hp1 : p ∈ s1.pending := mem_setInsert_self p s.pending
  have hfix := saves_fixed c s1 hr1 hp1 n
  have hsaves : traceStarts s (List.replicate (n + 1) (Event.save p c)) p = 0 := by
    rw [List.replicate_succ]
    simp only [traceStarts, hstep1, startsOf]
    rw [if_neg (by simp [hrun])]
    simpa using hfix.2
  refine ⟨hsaves, ?_⟩
  rw [traceStarts_append, hsaves]
  have happly : applyTrace s (List.replicate (n + 1) (Event.save p c)) = s1 := by
    rw [List.replicate_succ]
    simp only [applyTrace, List.foldl_cons, hstep1]
    exact hfix.1
  rw [happly]
  simp [traceStarts, startsOf, hp1]

/-- C2 (refuted by the code): the coalescing guarantee fails at a
reachable state.  The legal trace save, save, finish for path `"a"`
leaves the requeued coalesced follow-up run in flight with no slot
registered; dispatching `N = 2` save events for `"a"` while that run
is in flight starts a run immediately (before the in-flight run
completes), and over the two saves plus the completion two additional
runs for `"a"` are started — not exactly one. -/
theorem c2_two_extra_runs_from_requeued_state :
    legalFrom initState
        [Event.save "a" "c", Event.save "a" "c", Event.finish "a" "c",
         Event.save "a" "c", Event.save "a" "c", Event.finish "a" "c"] = true
    ∧ countInflight (applyTrace initState
        [Event.save "a" "c", Event.save "a" "c", Event.finish "a" "c"]) "a" = 1
    ∧ "a" ∉ (applyTrace initState
        [Event.save "a" "c", Event.save "a" "c", Event.finish "a" "c"]).running
    ∧ traceStarts (applyTrace initState
        [Event.save "a" "c", Event.save "a" "c", Event.finish "a" "c"])
        [Event.save "a" "c", Event.save "a" "c"] "a" = 1
    ∧ traceStarts (applyTrace initState
        [Event.save "a" "c", Event.save "a" "c", Event.finish "a" "c"])
        [Event.save "a" "c", Event.save "a" "c", Event.finish "a" "c"] "a" = 2 := by
  refine ⟨by decide, by decide, by decide, by decide, by decide⟩

theorem step_preserves_running_nodup (s : CoordState) (e : Event)
    (h : s.running.Nodup) : (step s e).running.Nodup := by
  cases e with
  | save p c =>
    by_cases hp : p ∈ s.running <;>
      simp [step, start_or_mark_pending, hp, h]
  | finish p c =>
    unfold step finish_and_maybe_rerun
    by_cases hp : p ∈ s.pending <;> simp [hp, h.erase p]

theorem applyTrace_running_nodup (t : List Event) :
    (applyTrace initState t).running.Nodup := by
  have H : ∀ (s : CoordState), s.running.Nodup →
      (applyTrace s t).running.Nodup := by
    induction t with
    | nil => intro s hs; exact hs
    | cons e t ih =>
      intro s hs
      have : applyTrace s (e :: t) = applyTrace (step s e) t := by
        simp [applyTrace]
      rw [this]
      exact ih (step s e) (step_preserves_running_nodup s e hs)
  exact H initState (by simp [initState])

/-- C4: whatever the outcome of `DprintRunner.run` — success, benign
no-match, tool-reported failure, binary-not-found, or any unexpected
exception — the path's slot is gone from the running map afterwards,
a pending rerun is dispatched (the rerun enters the in-flight set),
and a save event for the path arriving after the run has finished is
admitted immediately (`_start_or_mark_pending` starts a runner) rather
than queued. -/
theorem c4_slot_released_on_every_outcome (p c c' : String)
    (outcome : RunOutcome) (s : CoordState) (hr : s.running.Nodup) :
    p ∉ (runnerRun p c outcome s).state.running
    ∧ (p ∈ s.pending → (p, c) ∈ (runnerRun p c outcome s).state.inflight)
    ∧ (start_or_mark_pending p c' (runnerRun p c outcome s).state).2 = true := by
  have hnm : p ∉ s.running.erase p := by
    intro hmem
    exact ((List.Nodup.mem_erase_iff hr).1 hmem).1 rfl
  refine ⟨?_, ?_, ?_⟩ <;>
    simp only [runnerRun, finish_and_maybe_rerun] <;>
    by_cases hp : p ∈ s.pending <;>
    simp [hp, hnm, start_or_mark_pending]

theorem c4_witness :
    "a" ∉ (runnerRun "a" "c" RunOutcome.fileNotFound ⟨["a"], ["a"], [("a", "c")]⟩).state.running
    ∧ ("a" ∈ (⟨["a"], ["a"], [("a", "c")]⟩ : CoordState).pending →
        ("a", "c") ∈ (runnerRun "a" "c" RunOutcome.fileNotFound ⟨["a"], ["a"], [("a", "c")]⟩).state.inflight)
    ∧ (start_or_mark_pending "a" "d" (runnerRun "a" "c" RunOutcome.fileNotFound ⟨["a"], ["a"], [("a", "c")]⟩).state).2 = true :=
  c4_slot_released_on_every_outcome "a" "c" "d" RunOutcome.fileNotFound
    ⟨["a"], ["a"], [("a", "c")]⟩ (by decide)

theorem listIsPrefix_append_self (a y : List Char) :
    listIsPrefix a (a ++ y) = true := by
  induction a with
  | nil => simp [ listIsPrefix]
  | cons c l ih => simp [ listIsPrefix, ih]

theorem listIsInfix_here (a y : List Char) : listIsInfix a (a ++ y) = true := by
  cases a with
  | nil =>
    cases y with
    | nil => rfl
    | cons b t => simp [ listIsInfix, listIsPrefix]
  | cons c l =>
    simp [ listIsInfix, listIsPrefix, listIsPrefix_append_self]

theorem listIsInfix_skip (a : List Char) {t : List Char}
    (h : listIsInfix a t = true) (x : List Char) :
    listIsInfix a (x ++ t) = true := by
  induction x with
  | nil => simpa
  | cons b x ih => simp [ listIsInfix, ih]

theorem listIsInfix_suffix (a x : List Char) : listIsInfix a (x ++ a) = true := by
  have h := listIsInfix_here a []
  rw [List.append_nil] at h
  exact listIsInfix_skip a h x

/-- C5: for a completed formatter process, exit code 0 produces no
panel message; a nonzero exit whose combined cleaned output matches the
benign no-files test produces no panel message; any other nonzero exit
produces exactly one panel message, and that message contains the exit
code, the full cleaned standard output, and the full cleaned standard
error as substrings. -/
theorem c5_panel_classification (p c : String) (s : CoordState)
    (rc : Int) (out err : String) :
    (rc = 0 → (runnerRun p c (RunOutcome.proc rc out err) s).panels = [])
    ∧ (rc ≠ 0 → benignNoMatch (strip_ansi out) (strip_ansi err) = true →
        (runnerRun p c (RunOutcome.proc rc out err) s).panels = [])
    ∧ (rc ≠ 0 → benignNoMatch (strip_ansi out) (strip_ansi err) = false →
        ∃ m, (runnerRun p c (RunOutcome.proc rc out err) s).panels = [m]
          ∧ pyIn (toString rc) m = true
          ∧ pyIn (strip_ansi out) m = true
          ∧ pyIn (strip_ansi err) m = true) := by
  refine ⟨?_, ?_, ?_⟩
  · intro h
    simp [runnerRun, runnerPanels, h]
  · intro h hb
    simp [runnerRun, runnerPanels, h, hb]
  · intro h hb
    refine ⟨"dprint fmt failed (exit " ++ toString rc ++ "):\n\nSTDOUT:\n"
              ++ strip_ansi out ++ "\n\nSTDERR:\n" ++ strip_ansi err,
            ?_, ?_, ?_, ?_⟩
    · simp [runnerRun, runnerPanels, h, hb]
    · unfold pyIn
      simp only [String.data_append, List.append_assoc]
      exact listIsInfix_skip _ ( listIsInfix_here _ _) _
    · unfold pyIn
      simp only [String.data_append, List.append_assoc]
      exact listIsInfix_skip _ ( listIsInfix_skip _ ( listIsInfix_skip _
        ( listIsInfix_here _ _) _) _) _
    · unfold pyIn
      simp only [String.data_append, List.append_assoc]
      exact listIsInfix_skip _ ( listIsInfix_skip _ ( listIsInfix_skip _
        ( listIsInfix_skip _ ( listIsInfix_suffix _ _) _) _) _) _

theorem c5_witness :
    ∃ m, (runnerRun "p" "c" (RunOutcome.proc 1 "bad" "worse") initState).panels = [m]
      ∧ pyIn (toString (1 : Int)) m = true
      ∧ pyIn (strip_ansi "bad") m = true
      ∧ pyIn (strip_ansi "worse") m = true :=
  (c5_panel_classification "p" "c" initState 1 "bad" "worse").2.2
    (by decide) (by decide)

/-- C7: `_maybe_revert` does nothing when the buffer is loading or has
unsaved user modifications (never a reload while user-modified, even if
disk differs); a failed on-disk read silently aborts with no reload;
otherwise it issues a full-buffer reload if and only if the buffer's
text encoded as UTF-8 bytes differs from the on-disk bytes. -/
theorem c7_reload_reconciliation (v : ViewState) (disk : List Nat) :
    (v.isLoading = true ∨ v.isDirty = true →
      ∀ d, maybe_revert (some v) d = false)
    ∧ maybe_revert (some v) none = false
    ∧ (v.isLoading = false → v.isDirty = false →
        (maybe_revert (some v) (some disk) = true ↔ encodeUtf8 v.text ≠ disk)) := by
  refine ⟨?_, ?_, ?_⟩
  · intro h d
    rcases h with h | h <;> simp [maybe_revert, h]
  · by_cases h1 : v.isLoading <;> by_cases h2 : v.isDirty <;>
      simp [maybe_revert, h1, h2]
  · intro h1 h2
    simp [maybe_revert, h1, h2]

theorem c7_witness :
    maybe_revert (some ⟨false, true, "a"⟩) (some [98]) = false ∧
    (maybe_revert (some ⟨false, false, "a"⟩) (some [98]) = true ↔
      encodeUtf8 "a" ≠ [98]) :=
  ⟨(c7_reload_reconciliation ⟨false, true, "a"⟩ [98]).1 (Or.inr rfl) (some [98]),
   (c7_reload_reconciliation ⟨false, false, "a"⟩ [98]).2.2 rfl rfl⟩

/-- C8: a save event whose view has no file path, or whose directory
chain yields no configuration file, makes the handler return silently:
no external tool invocation (neither probe nor format run), no runner
dispatched, and no panel message. -/
theorem c8_silent_exit_no_invocations (fs : List String → Bool)
    (probe : ProbeOutcome) (fp : List String) :
    on_post_save_async false none fs probe = ⟨[], false, []⟩
    ∧ (find_dprint_config fs fp.dropLast = none →
        on_post_save_async false (some fp) fs probe = ⟨[], false, []⟩) := by
  constructor
  · rfl
  · intro h
    simp [on_post_save_async, h]

theorem c8_witness :
    on_post_save_async false (some ["a", "f.ts"]) (fun _ => false) ProbeOutcome.exc
      = ⟨[], false, []⟩ :=
  (c8_silent_exit_no_invocations (fun _ => false) ProbeOutcome.exc ["a", "f.ts"]).2
    (by simp [find_dprint_config, checkDir, configNames])

/-- C9 counterexample: the claim that the handler body executes only
once per physical save fails — if the host delivers the
save-completion event a second time after the first handler invocation
has already returned (and cleared its busy mark), the body executes a
second time: the trace arrive, leave, arrive, leave for one view runs
the body twice. -/
theorem c9_counterexample_sequential_duplicate :
    bodyCount (guardRun [GuardEvent.arrive 1, GuardEvent.leave 1,
                         GuardEvent.arrive 1, GuardEvent.leave 1]) 1 = 2
    ∧ ¬ bodyCount (guardRun [GuardEvent.arrive 1, GuardEvent.leave 1,
                             GuardEvent.arrive 1, GuardEvent.leave 1]) 1 ≤ 1 := by
  constructor
  · decide
  · decide

theorem guard_busy_fixed (vid : Nat) (s : GuardState) (h : vid ∈ s.busy) :
    ∀ n, List.foldl guardStep s (List.replicate n (GuardEvent.arrive vid)) = s := by
  intro n
  induction n with
  | zero => rfl
  | succ m ih =>
    rw [List.replicate_succ, List.foldl_cons]
    have hs : guardStep s (GuardEvent.arrive vid) = s := by
      simp [guardStep, h]
    rw [hs]
    exact ih

/-- C9 amended: the busy-set guard ensures at most one handler-body
execution per view is in progress at a time — any number of duplicate
save-completion events for the same view delivered while an invocation
for that view is still executing are dropped, so the body runs exactly
once for that burst; only a duplicate delivered after the invocation
finishes runs the body again. -/
theorem c9_amended_overlapping_duplicates_once (vid : Nat) (n : Nat) :
    bodyCount (guardRun (GuardEvent.arrive vid ::
      (List.replicate n (GuardEvent.arrive vid) ++ [GuardEvent.leave vid]))) vid = 1 := by
  unfold guardRun
  rw [List.foldl_cons]
  have h1 : guardStep ⟨[], []⟩ (GuardEvent.arrive vid) = ⟨[vid], [vid]⟩ := by
    simp [guardStep]
  rw [h1, List.foldl_append]
  rw [guard_busy_fixed vid ⟨[vid], [vid]⟩ (by simp) n]
  simp [guardStep, bodyCount]

/-- C10: when the coverage probe exits with code 0, the file counts as
covered if and only if the cleaned, stripped probe output is non-empty
and contains a line whose basename equals the saved file's basename
(so a listed path in a different directory with the same basename
counts, and empty output means not covered); any nonzero probe exit or
exception yields covered. -/
theorem c10_probe_coverage (fp : String) (rc : Int) (out err : String) :
    (rc = 0 →
      (handled_by_dprint fp (ProbeOutcome.proc rc out err) = true ↔
        (pyStrip (strip_ansi out) ≠ "" ∧
         ∃ line ∈ pySplitlines (pyStrip (strip_ansi out)),
            pyBasename (pyStrip line) = pyBasename fp)))
    ∧ (rc ≠ 0 → handled_by_dprint fp (ProbeOutcome.proc rc out err) = true)
    ∧ handled_by_dprint fp ProbeOutcome.exc = true := by
  refine ⟨?_, ?_, rfl⟩
  · intro h
    by_cases ho : pyStrip (strip_ansi out) = "" <;>
      simp [handled_by_dprint, h, ho, List.any_eq_true]
  · intro h
    simp [handled_by_dprint, h]

theorem c10_witness :
    handled_by_dprint "/tmp/x/file.ts"
      (ProbeOutcome.proc 0 "/other/dir/file.ts\n" "") = true :=
  ((c10_probe_coverage "/tmp/x/file.ts" 0 "/other/dir/file.ts\n" "").1 rfl).2
    (by decide)

end DprintOnSave
